import Mathlib

/-!
Verification of the container-dashboard application (tempus-fugit).

The development shallowly embeds the persistence/migration layer and the
pure time arithmetic of the three schema generations found in the source:

* `App1` — the current generation (source file `part_001`): containers with a
  nested `data` payload, inline legacy-timers migration inside the local read,
  settings import/export.
* `App2` — the widgets-era generation (source file `part_002`): flat container
  records, `reorderContainers`, and the chained startup migration
  (`migrateTimersToContainers` / `migrateFromLegacy`).

JavaScript numbers that hold epoch milliseconds are modelled as `Int`;
JavaScript's falsy-coalescing `x || d` on optional fields is modelled by the
`jsOr*` helpers; `localStorage` is modelled as a record of typed slots, a slot
being absent, unparseable, parseable-but-not-an-array (truthy or falsy), or an
array of typed records.  The optional `chrome.storage.sync` backend is
modelled as an abstract read outcome where a claim involves it, and as
unavailable (the localStorage-only configuration of the source) where it is
irrelevant to the claim.
-/

/-- JavaScript `o || d` for an optional string field (both `undefined` and the
empty string are falsy). -/
def jsOrS : Option String → String → String
  | none, d => d
  | some s, d => if s = "" then d else s

/-- JavaScript `o || d` for an optional numeric field (both `undefined` and
`0` are falsy). -/
def jsOrI : Option Int → Int → Int
  | none, d => d
  | some n, d => if n = 0 then d else n

/-- JavaScript truthiness of a nullable string (`localStorage.getItem`
result): `null` and `""` are falsy. -/
def jsTruthyS : Option String → Bool
  | none => false
  | some s => s ≠ ""

/-- Replace the first occurrence of `pat` by `rep` in a character list —
the semantics of JavaScript `String.prototype.replace` with a string
pattern.  When the pattern does not occur the list is unchanged. -/
def replaceFirstL (pat rep : List Char) : List Char → List Char
  | [] => if pat = [] then rep else []
  | c :: cs =>
    if pat.isPrefixOf (c :: cs) then rep ++ (c :: cs).drop pat.length
    else c :: replaceFirstL pat rep cs

/-- JavaScript `s.replace(pat, rep)` with a plain-string pattern: replaces
only the first occurrence. -/
def jsReplaceFirst (s pat rep : String) : String :=
  String.mk (replaceFirstL pat.data rep.data s.data)

/-- Outcome of reading one `localStorage` slot that is expected to hold a
JSON array of records of type `α`: the key may be absent, hold a string that
fails to parse, parse to a non-array value (truthy or falsy), or parse to an
array. -/
inductive StoredJson (α : Type) where
  | absent
  | corrupt
  | notArrayTruthy
  | notArrayFalsy
  | arr (xs : List α)
  deriving Repr, DecidableEq

namespace TimeCalc

def MS_PER_DAY : Int := 24 * 60 * 60 * 1000

def MS_PER_WEEK : Int := 7 * 24 * 60 * 60 * 1000

/-- `TimeCalc.getWeeksBetween`: `Math.ceil((endDate - startDate) / MS_PER_WEEK)`.
Integer ceiling division, expressed with floor division by the standard
identity `ceil(a/b) = floor((a+b-1)/b)` for `b > 0`. -/
def getWeeksBetween (startDate endDate : Int) : Int :=
  (endDate - startDate + MS_PER_WEEK - 1).fdiv MS_PER_WEEK

/-- `TimeCalc.getElapsedWeeks`: zero when `now` precedes `startDate`,
otherwise `Math.floor((now - startDate) / MS_PER_WEEK)`. -/
def getElapsedWeeks (startDate now : Int) : Int :=
  let diffMs := now - startDate
  if diffMs < 0 then 0 else diffMs.fdiv MS_PER_WEEK

/-- Days between the civil (proleptic Gregorian) date `y-m-d` (month 1-based)
and 1970-01-01 — the day count underlying a JavaScript `Date` constructed at
local midnight.  Standard era-based civil-from-days arithmetic. -/
def daysFromCivil (y m d : Int) : Int :=
  let yAdj := if m ≤ 2 then y - 1 else y
  let era := yAdj.fdiv 400
  let yoe := yAdj - era * 400
  let mp := (m + 9).emod 12
  let doy := (153 * mp + 2).fdiv 5 + d - 1
  let doe := yoe * 365 + yoe.fdiv 4 - yoe.fdiv 100 + doy
  era * 146097 + doe - 719468

/-- Inverse of `daysFromCivil`: the civil year of a day count relative to
1970-01-01. -/
def yearFromDays (z : Int) : Int :=
  let z2 := z + 719468
  let era := z2.fdiv 146097
  let doe := z2 - era * 146097
  let yoe := (doe - doe.fdiv 1460 + doe.fdiv 36524 - doe.fdiv 146096).fdiv 365
  let y := yoe + era * 400
  let doy := doe - (365 * yoe + yoe.fdiv 4 - yoe.fdiv 100)
  let mp := (5 * doy + 2).fdiv 153
  let m := if mp < 10 then mp + 3 else mp - 9
  if m ≤ 2 then y + 1 else y

/-- JavaScript `new Date(year, monthIndex, day).getTime()` at local midnight
in an idealized (no-DST) timezone: `monthIndex` is 0-based as in the source
(`new Date(year, 0, 1)`, `new Date(year, 11, 31)`). -/
def newDate (year monthIndex day : Int) : Int :=
  daysFromCivil year (monthIndex + 1) day * MS_PER_DAY

/-- JavaScript `date.getFullYear()` for an epoch-millisecond instant (the
civil year containing the instant). -/
def getFullYear (ms : Int) : Int :=
  yearFromDays (ms.fdiv MS_PER_DAY)

/-- One bucket produced by `TimeCalc.getYearRanges`. -/
structure YearRange where
  year : Int
  label : String
  weeks : Int
  startDate : Int
  deriving Repr, DecidableEq

/-- `TimeCalc.getYearRanges`: one bucket per calendar year from the start
date's year to the end date's year; the first bucket is clipped to start at
`startDate`, the last to end at `endDate`, interior years run Jan 1 to
Dec 31; each bucket's week count is `getWeeksBetween` over the clipped
sub-interval with a floor of 1. -/
def getYearRanges (startDate endDate : Int) : List YearRange :=
  let startYear := getFullYear startDate
  let endYear := getFullYear endDate
  (List.range (endYear - startYear + 1).toNat).map (fun (i : Nat) =>
    let year := startYear + (i : Int)
    let yearStart := if year = startYear then startDate else newDate year 0 1
    let yearEnd := if year = endYear then endDate else newDate year 11 31
    let weeksInYear := getWeeksBetween yearStart yearEnd
    { year := year
      label := toString year
      weeks := max 1 weeksInYear
      startDate := yearStart })

/-- Result record of `TimeCalc.getRemainingTime`. -/
structure RemainingTime where
  weeks : Nat
  days : Nat
  hours : Nat
  minutes : Nat
  seconds : Nat
  deriving Repr, DecidableEq

/-- `TimeCalc.getRemainingTime`: all-zero when the target is not in the
future, otherwise the mixed-radix decomposition of the millisecond delta. -/
def getRemainingTime (targetDate now : Int) : RemainingTime :=
  let diffMs := targetDate - now
  if diffMs ≤ 0 then ⟨0, 0, 0, 0, 0⟩
  else
    let d := diffMs.toNat
    { seconds := d / 1000 % 60
      minutes := d / (1000 * 60) % 60
      hours := d / (1000 * 60 * 60) % 24
      days := d / (1000 * 60 * 60 * 24) % 7
      weeks := d / (1000 * 60 * 60 * 24 * 7) }

end TimeCalc

namespace App1

/-- Variant payload of a current-generation container (`data` in the source):
the union of the fields the three variants store, each optional since the
payload is a plain JSON object. -/
structure ContainerData where
  startDate : Option String := none
  targetDate : Option String := none
  imageUrl : Option String := none
  content : Option String := none
  deriving Repr, DecidableEq

/-- Current-generation persisted container record (source `part_001`):
`{ id, type, title, description, height, column, createdAt, data }`. -/
structure Container where
  id : String
  type : String
  title : String
  description : String
  height : Int
  column : Int
  createdAt : Int
  data : ContainerData
  deriving Repr, DecidableEq

/-- Partial container record passed to `Storage.updateContainer`: each field
optional, a present field overriding the stored one under JavaScript object
spread `{ ...stored, ...partial }`. -/
structure ContainerPatch where
  id : Option String := none
  type : Option String := none
  title : Option String := none
  description : Option String := none
  height : Option Int := none
  column : Option Int := none
  createdAt : Option Int := none
  data : Option ContainerData := none
  deriving Repr, DecidableEq

/-- JavaScript `{ ...c, ...p }`: fields present in the patch override, other
fields are retained; a `data` field in the patch replaces the entire payload
object (no deep merge). -/
def applyPatch (c : Container) (p : ContainerPatch) : Container :=
  { id := p.id.getD c.id
    type := p.type.getD c.type
    title := p.title.getD c.title
    description := p.description.getD c.description
    height := p.height.getD c.height
    column := p.column.getD c.column
    createdAt := p.createdAt.getD c.createdAt
    data := p.data.getD c.data }

/-- Legacy timer record (the `speedrun_timers` schema) as consumed by
`Storage.migrateTimersToContainers` in `part_001`. -/
structure LegacyTimer where
  id : String
  title : Option String := none
  description : Option String := none
  height : Option Int := none
  column : Option Int := none
  createdAt : Option Int := none
  startDate : Option String := none
  targetDate : Option String := none
  deriving Repr, DecidableEq

/-- Settings record (`{ theme, effect, fontSize: {...}, columns }`). -/
structure Settings where
  theme : String
  effect : String
  fontTitles : String
  fontMetadata : String
  fontCountdown : String
  columns : Int
  deriving Repr, DecidableEq

/-- The durable local store (`localStorage`) slots that the current
generation touches: the containers key, the legacy timers key, and the
settings key. -/
structure LocalState where
  containers : StoredJson Container
  timers : StoredJson LegacyTimer
  settings : Option Settings
  deriving Repr, DecidableEq

/-- Outcome of the optional synced-backend read (`chrome.storage.sync.get`):
the API may be unavailable, report `runtime.lastError`, find no value or a
non-array value under the key, or return an array. -/
inductive SyncRead where
  | unavailable
  | failed
  | missing
  | notArray
  | value (cs : List Container)
  deriving Repr, DecidableEq

namespace Storage

/-- `Storage.set` on the durable local slot: `localStorage.setItem(KEY_CONTAINERS,
JSON.stringify(containers))` (the best-effort synced write is swallowed). -/
def set (cs : List Container) (ls : LocalState) : LocalState :=
  { ls with containers := .arr cs }

/-- `Storage.migrateTimersToContainers` (`part_001`): field-by-field transform
of one legacy timer, taking `Date.now()` as a parameter. -/
def migrateTimer (now : Int) (t : LegacyTimer) : Container :=
  { id := jsReplaceFirst t.id "timer_" "container_"
    type := "countdown"
    title := jsOrS t.title ""
    description := jsOrS t.description ""
    height := jsOrI t.height 2
    column := t.column.getD 0
    createdAt := jsOrI t.createdAt now
    data := { startDate := t.startDate, targetDate := t.targetDate } }

/-- `Storage.migrateTimersToContainers` over the whole legacy array. -/
def migrateTimersToContainers (now : Int) (ts : List LegacyTimer) : List Container :=
  ts.map (migrateTimer now)

/-- `Storage.getFromLocalStorage`: return the containers key when it parses
to an array; otherwise, when the legacy timers key parses to an array,
migrate it, persist the migrated list under the containers key, remove the
legacy key and return the migrated list; otherwise return the empty list. -/
def getFromLocalStorage (now : Int) (ls : LocalState) : LocalState × List Container :=
  match ls.containers with
  | .arr cs => (ls, cs)
  | _ =>
    match ls.timers with
    | .arr ts =>
      let cs := migrateTimersToContainers now ts
      ({ set cs ls with timers := .absent }, cs)
    | _ => (ls, [])

/-- `Storage.get`: prefer the synced backend's value when the read succeeds
and yields an array; on an unavailable backend, a reported error, a missing
key or a non-array value, fall back to the durable local read. -/
def get (sync : SyncRead) (now : Int) (ls : LocalState) : LocalState × List Container :=
  match sync with
  | .value cs => (ls, cs)
  | _ => getFromLocalStorage now ls

/-- Update helper: `containers.findIndex(c => c.id === id)` followed by the
in-place overwrite `containers[index] = { ...containers[index], ...data }` —
the first record whose id matches is merged with the patch; the merged
record is also returned. -/
def updateFirst (id : String) (p : ContainerPatch) :
    List Container → List Container × Option Container
  | [] => ([], none)
  | c :: cs =>
    if c.id = id then (applyPatch c p :: cs, some (applyPatch c p))
    else
      let r := updateFirst id p cs
      (c :: r.1, r.2)

/-- `Storage.updateContainer`: find the first record with the given id,
shallow-merge the partial onto it, persist, and return the merged record;
`null` when the id is not found (then nothing is written). -/
def updateContainer (id : String) (p : ContainerPatch) (sync : SyncRead) (now : Int)
    (ls : LocalState) : LocalState × Option Container :=
  let (ls1, cs) := get sync now ls
  let (cs2, r) := updateFirst id p cs
  match r with
  | some c => (set cs2 ls1, some c)
  | none => (ls1, none)

/-- `Storage.setSettings` on the durable local slot. -/
def setSettings (s : Settings) (ls : LocalState) : LocalState :=
  { ls with settings := some s }

end Storage

/-- `Container.adjustHeight` (`part_001`): the new height the UI height
control computes before persisting — the current height (defaulting to 2 on
a falsy stored value) plus the delta, clamped into `[1,5]` by
`Math.max(1, Math.min(5, currentHeight + delta))`. -/
def adjustHeightNew (heightField : Option Int) (delta : Int) : Int :=
  let currentHeight := jsOrI heightField 2
  max 1 (min 5 (currentHeight + delta))

/-- Parsed import document as seen by `Settings.importData` after
`JSON.parse`: the parse may fail, and the `containers` field may be missing,
non-array, or an array; a `settings` field is optional. -/
inductive ImportDoc where
  | parseError
  | doc (containers : StoredJson Container) (settings : Option Settings)
  deriving Repr, DecidableEq

/-- `Settings.importData`: reject (catching the thrown error, writing
nothing) unless the document parsed and its `containers` field is an array;
otherwise overwrite the stored container list wholesale and, when a
`settings` field is present, the stored settings. -/
def importData (d : ImportDoc) (ls : LocalState) : LocalState :=
  match d with
  | .parseError => ls
  | .doc cf s? =>
    match cf with
    | .arr cs =>
      let ls1 := Storage.set cs ls
      match s? with
      | some s => Storage.setSettings s ls1
      | none => ls1
    | _ => ls

end App1

namespace App2

/-- Widgets-era persisted container record (source `part_002`): a flat
record with the variant-specific fields stored at top level
(`startDate`/`targetDate` for countdown, `imageUrl` for image, `text` for
text), each optional since the payload is a plain JSON object. -/
structure Container where
  id : String
  type : String
  title : String
  description : String
  height : Int
  createdAt : Int
  startDate : Option String := none
  targetDate : Option String := none
  imageUrl : Option String := none
  text : Option String := none
  deriving Repr, DecidableEq

/-- Item of the legacy `speedrun_widgets` / `speedrun_timers` arrays as
consumed by `migrateTimersToContainers` in `part_002`: the object spread
`{...item, id: ..., type: ...}` carries every stored field over, with only
the id prefix rewritten and a missing `type` defaulted. -/
structure LegacyItem where
  id : String
  type : Option String := none
  title : String := ""
  description : String := ""
  height : Int := 2
  createdAt : Int := 0
  startDate : Option String := none
  targetDate : Option String := none
  imageUrl : Option String := none
  text : Option String := none
  deriving Repr, DecidableEq

/-- Draft record passed to `Storage.addContainer` (`part_002`). -/
structure AddData where
  type : Option String := none
  title : Option String := none
  description : Option String := none
  height : Option Int := none
  startDate : Option String := none
  targetDate : Option String := none
  imageUrl : Option String := none
  text : Option String := none
  deriving Repr, DecidableEq

/-- The `localStorage` slots the widgets-era generation touches: the
containers key, the two legacy array keys, and the four legacy single-timer
keys.  The optional synced backend is modelled as unavailable (the
localStorage-only configuration of the source). -/
structure LocalState where
  containers : StoredJson Container
  widgets : StoredJson LegacyItem
  timers : StoredJson LegacyItem
  legacyTarget : Option String := none
  legacyStart : Option String := none
  legacyTitle : Option String := none
  legacyDescription : Option String := none
  deriving Repr, DecidableEq

namespace Storage

/-- `Storage.getFromLocalStorage` (`part_002`): the containers key when it
parses to an array, else the empty list (no inline migration in this
generation). -/
def getFromLocalStorage (ls : LocalState) : List Container :=
  match ls.containers with
  | .arr cs => cs
  | _ => []

/-- `Storage.set` (`part_002`) on the durable local slot. -/
def set (cs : List Container) (ls : LocalState) : LocalState :=
  { ls with containers := .arr cs }

/-- `Storage.reorderContainers`: map each requested id to the first stored
record carrying it (`containers.find`), drop the ids that match nothing
(`filter(Boolean)`), persist the projection and return it. -/
def reorderContainers (orderedIds : List String) (ls : LocalState) :
    LocalState × List Container :=
  let cs := getFromLocalStorage ls
  let reordered :=
    (orderedIds.map (fun i => cs.find? (fun c => c.id == i))).filterMap (fun x => x)
  (set reordered ls, reordered)

/-- `Storage.addContainer` (`part_002`): defaults for the common fields, the
generated id and `Date.now()` passed as parameters, then the type-specific
fields copied from the draft, then append and persist. -/
def addContainer (freshId : String) (now : Int) (d : AddData) (ls : LocalState) :
    LocalState × Container :=
  let cs := getFromLocalStorage ls
  let ty := jsOrS d.type "countdown"
  let newContainer : Container :=
    { id := freshId
      type := ty
      title := jsOrS d.title ""
      description := jsOrS d.description ""
      height := jsOrI d.height 2
      createdAt := now
      startDate := if ty = "countdown" then d.startDate else none
      targetDate := if ty = "countdown" then d.targetDate else none
      imageUrl := if ty = "image" then some (jsOrS d.imageUrl "") else none
      text := if ty = "text" then some (jsOrS d.text "") else none }
  (set (cs ++ [newContainer]) ls, newContainer)

/-- Transform of one legacy array item (`part_002`): object spread keeping
every field, the anchored regex `^(timer_|widget_)` rewritten to
`container_` on the id, and a falsy `type` defaulted to `countdown`. -/
def migrateItem (it : LegacyItem) : Container :=
  { id :=
      if it.id.startsWith "timer_" then "container_" ++ it.id.drop 6
      else if it.id.startsWith "widget_" then "container_" ++ it.id.drop 7
      else it.id
    type := jsOrS it.type "countdown"
    title := it.title
    description := it.description
    height := it.height
    createdAt := it.createdAt
    startDate := it.startDate
    targetDate := it.targetDate
    imageUrl := it.imageUrl
    text := it.text }

/-- JavaScript value of the `oldData` variable after one legacy slot is
read: an array, a truthy non-array, or null-ish (absent key, parse failure,
or a falsy parsed value). -/
inductive OldData where
  | arr (xs : List LegacyItem)
  | nonArr
  deriving Repr, DecidableEq

/-- Reading one legacy array slot into `oldData`. -/
def oldDataOf : StoredJson LegacyItem → Option OldData
  | .arr xs => some (.arr xs)
  | .notArrayTruthy => some .nonArr
  | _ => none

/-- `Storage.migrateTimersToContainers` (`part_002`, localStorage-only
configuration): a no-op returning null when containers already exist;
otherwise reads `speedrun_widgets`, falling back to `speedrun_timers` only
when the widgets read produced a falsy value, and when the result is a
non-empty array persists the transformed list and removes both legacy
keys. -/
def migrateTimersToContainers (ls : LocalState) : LocalState × Option (List Container) :=
  let cs := getFromLocalStorage ls
  if cs.length > 0 then (ls, none)
  else
    let oldData :=
      match oldDataOf ls.widgets with
      | some x => some x
      | none => oldDataOf ls.timers
    match oldData with
    | some (.arr items) =>
      if items.length > 0 then
        let migratedContainers := items.map migrateItem
        ({ set migratedContainers ls with widgets := .absent, timers := .absent },
          some migratedContainers)
      else (ls, none)
    | _ => (ls, none)

/-- `Storage.migrateFromLegacy` (`part_002`, localStorage-only
configuration): when the single-timer legacy keys `target` and `start` are
both truthy, synthesize one countdown container through `addContainer` and
remove the four legacy keys; otherwise do nothing and return null. -/
def migrateFromLegacy (freshId : String) (now : Int) (ls : LocalState) :
    LocalState × Option Container :=
  if jsTruthyS ls.legacyTarget && jsTruthyS ls.legacyStart then
    let draft : AddData :=
      { type := some "countdown"
        title := some (jsOrS ls.legacyTitle "")
        description := some (jsOrS ls.legacyDescription "")
        targetDate := ls.legacyTarget
        startDate := ls.legacyStart }
    let (ls1, c) := addContainer freshId now draft ls
    let ls2 : LocalState :=
      { ls1 with
        legacyTarget := none
        legacyStart := none
        legacyTitle := none
        legacyDescription := none }
    (ls2, some c)
  else (ls, none)

end Storage

/-- Storage effect of `ContainerManager.loadContainers` (`part_002`) — the
startup migration: run `migrateTimersToContainers`; when it migrated
nothing, read the store, and only when the store is empty attempt
`migrateFromLegacy`. -/
def loadContainersStore (freshId : String) (now : Int) (ls : LocalState) : LocalState :=
  let (ls1, migrated) := Storage.migrateTimersToContainers ls
  match migrated with
  | some _ => ls1
  | none =>
    let containers := Storage.getFromLocalStorage ls1
    if containers.length = 0 then (Storage.migrateFromLegacy freshId now ls1).1
    else ls1

end App2

/-- Replacing a pattern at the head of a list yields the replacement followed
by the rest (first-occurrence semantics of `replaceFirstL`). -/
theorem replaceFirstL_append_self (pat rep rest : List Char) (hp : pat ≠ []) :
    replaceFirstL pat rep (pat ++ rest) = rep ++ rest := by
  cases pat with
  | nil => exact absurd rfl hp
  | cons p ps =>
    simp only [List.cons_append]
    unfold replaceFirstL
    rw [if_pos]
    · simp only [List.length_cons, List.drop_succ_cons]
      rw [List.drop_left]
    · rw [List.isPrefixOf_iff_prefix]
      exact List.prefix_append (p :: ps) rest

/-- String-level corollary: rewriting the `timer_` prefix of a legacy id
yields the same id under the `container_` prefix. -/
theorem jsReplaceFirst_timer_to_container (r : String) :
    jsReplaceFirst ("timer_" ++ r) "timer_" "container_" = "container_" ++ r := by
  unfold jsReplaceFirst
  have hdata : ("timer_" ++ r).data = "timer_".data ++ r.data := rfl
  rw [hdata, replaceFirstL_append_self _ _ _ (by decide)]
  rfl

/-- Claim C4: `getRemainingTime(target, now)` returns all-zero fields whenever
`target <= now`, and for `target > now` it is the mixed-radix decomposition of
the millisecond delta: `seconds = delta/1000 % 60`, `minutes = delta/60000 % 60`,
`hours = delta/3600000 % 24`, `days = delta/86400000 % 7` (remainder after
weeks, not a total), `weeks = delta/604800000`. -/
theorem C4_getRemainingTime_mixed_radix (targetDate now : Int) :
    (targetDate ≤ now →
      TimeCalc.getRemainingTime targetDate now = ⟨0, 0, 0, 0, 0⟩) ∧
    (now < targetDate →
      TimeCalc.getRemainingTime targetDate now =
        { weeks := (targetDate - now).toNat / 604800000
          days := (targetDate - now).toNat / 86400000 % 7
          hours := (targetDate - now).toNat / 3600000 % 24
          minutes := (targetDate - now).toNat / 60000 % 60
          seconds := (targetDate - now).toNat / 1000 % 60 }) := by
  constructor
  · intro h
    simp only [TimeCalc.getRemainingTime]
    rw [if_pos (by omega)]
  · intro h
    simp only [TimeCalc.getRemainingTime]
    rw [if_neg (by omega)]

/-- Witness for C4 at a concrete instant: one week plus one day, one hour,
one minute and one second before the target. -/
theorem C4_getRemainingTime_mixed_radix_witness :
    TimeCalc.getRemainingTime 694861000 0 =
      { weeks := 1, days := 1, hours := 1, minutes := 1, seconds := 1 } := by
  have h := (C4_getRemainingTime_mixed_radix 694861000 0).2 (by decide)
  rw [h]; decide

/-- Claim C8: for a fixed start date, `getElapsedWeeks(start, now)` is
monotonically non-decreasing in `now`, and it is `0` (never negative) for
every `now < start`. -/
theorem C8_getElapsedWeeks_monotone_and_clamped (startDate now1 now2 : Int)
    (h : now1 ≤ now2) :
    TimeCalc.getElapsedWeeks startDate now1 ≤ TimeCalc.getElapsedWeeks startDate now2 ∧
    (now1 < startDate → TimeCalc.getElapsedWeeks startDate now1 = 0) ∧
    0 ≤ TimeCalc.getElapsedWeeks startDate now1 := by
  have key : ∀ n1 n2 : Int, n1 ≤ n2 →
      TimeCalc.getElapsedWeeks startDate n1 ≤ TimeCalc.getElapsedWeeks startDate n2 := by
    intro n1 n2 hle
    simp only [TimeCalc.getElapsedWeeks]
    by_cases h1 : n1 - startDate < 0
    · rw [if_pos h1]
      by_cases h2 : n2 - startDate < 0
      · rw [if_pos h2]
      · rw [if_neg h2]
        exact Int.fdiv_nonneg (by omega) (by decide)
    · rw [if_neg h1, if_neg (by omega)]
      rw [Int.fdiv_eq_ediv _ (by decide), Int.fdiv_eq_ediv _ (by decide)]
      exact Int.ediv_le_ediv (by decide) (by omega)
  refine ⟨key now1 now2 h, ?_, ?_⟩
  · intro hlt
    simp only [TimeCalc.getElapsedWeeks]
    rw [if_pos (by omega)]
  · simp only [TimeCalc.getElapsedWeeks]
    by_cases h1 : now1 - startDate < 0
    · rw [if_pos h1]
    · rw [if_neg h1]
      exact Int.fdiv_nonneg (by omega) (by decide)

/-- Claim C5 counterexample: on the interval 2097-01-01 .. 2104-01-02 (which
crosses the non-leap century year 2100, so all seven full years have 365
days), every interior bucket spans Jan 1 .. Dec 31 = 364 days = exactly 52
weeks, the seven skipped Dec 31 → Jan 1 boundary days add up to a full week,
and the bucket sum 7·52 + 1 = 365 falls short of
`getWeeksBetween = ceil(2556/7) = 366`. -/
theorem C5_counterexample :
    TimeCalc.newDate 2097 0 1 < TimeCalc.newDate 2104 0 2 ∧
    ((TimeCalc.getYearRanges (TimeCalc.newDate 2097 0 1) (TimeCalc.newDate 2104 0 2)).map
        TimeCalc.YearRange.weeks).sum = 365 ∧
    TimeCalc.getWeeksBetween (TimeCalc.newDate 2097 0 1) (TimeCalc.newDate 2104 0 2) = 366 ∧
    ¬ TimeCalc.getWeeksBetween (TimeCalc.newDate 2097 0 1) (TimeCalc.newDate 2104 0 2) ≤
        ((TimeCalc.getYearRanges (TimeCalc.newDate 2097 0 1) (TimeCalc.newDate 2104 0 2)).map
          TimeCalc.YearRange.weeks).sum := by
  refine ⟨by decide, ?_, by decide, ?_⟩ <;> decide

/-- Claim C5 amended: for `start < end`, `getYearRanges` returns
`endYear - startYear + 1` buckets and every bucket's weeks field is at least
1; the lower bound `sum of weeks >= getWeeksBetween(start, end)` holds when
the interval lies within a single calendar year, but fails in general (see
the counterexample: the skipped Dec 31 → Jan 1 boundary days can add up to a
full uncounted week). -/
theorem C5_getYearRanges_amended (s e : Int) (h : s < e) :
    (TimeCalc.getYearRanges s e).length
      = (TimeCalc.getFullYear e - TimeCalc.getFullYear s + 1).toNat ∧
    (∀ r ∈ TimeCalc.getYearRanges s e, 1 ≤ r.weeks) ∧
    (TimeCalc.getFullYear s = TimeCalc.getFullYear e →
      TimeCalc.getWeeksBetween s e ≤
        ((TimeCalc.getYearRanges s e).map TimeCalc.YearRange.weeks).sum) := by
  refine ⟨?_, ?_, ?_⟩
  · simp only [TimeCalc.getYearRanges, List.length_map, List.length_range]
  · intro r hr
    simp only [TimeCalc.getYearRanges, List.mem_map, List.mem_range] at hr
    obtain ⟨i, _, rfl⟩ := hr
    exact le_max_left _ _
  · intro hy
    simp only [TimeCalc.getYearRanges, ← hy]
    have h1 : (TimeCalc.getFullYear s - TimeCalc.getFullYear s + 1).toNat = 1 := by omega
    have h2 : List.range 1 = [0] := rfl
    simp only [h1, h2, List.map_cons, List.map_nil, List.sum_cons, List.sum_nil,
      Nat.cast_zero, add_zero, eq_self_iff_true, if_true]
    exact le_max_right _ _

/-- Witness for C5 amended, at the concrete one-day interval
2024-01-01 .. 2024-01-02 (a single-year interval, so the sum bound applies). -/
theorem C5_getYearRanges_amended_witness :
    TimeCalc.newDate 2024 0 1 < TimeCalc.newDate 2024 0 2 ∧
    (TimeCalc.getYearRanges (TimeCalc.newDate 2024 0 1) (TimeCalc.newDate 2024 0 2)).length
      = (TimeCalc.getFullYear (TimeCalc.newDate 2024 0 2)
          - TimeCalc.getFullYear (TimeCalc.newDate 2024 0 1) + 1).toNat := by
  refine ⟨by decide, ?_⟩
  exact (C5_getYearRanges_amended _ _ (by decide)).1

/-- Witness for C8 at concrete instants: start 0, now advancing from a
pre-start instant. -/
theorem C8_getElapsedWeeks_monotone_and_clamped_witness :
    TimeCalc.getElapsedWeeks 100 0 ≤ TimeCalc.getElapsedWeeks 100 604800200 ∧
    (0 < (100 : Int) → TimeCalc.getElapsedWeeks 100 0 = 0) ∧
    0 ≤ TimeCalc.getElapsedWeeks 100 0 :=
  C8_getElapsedWeeks_monotone_and_clamped 100 0 604800200 (by decide)

/-- Claim C1 counterexample: on a store holding one container with id `"a"`
and height 2, `Storage.updateContainer("a", {height: 7})` stores height 7 —
the store-level merge performs no clamping, so the stored record is not
height 5 and the `[1,5]` range is violated by this store mutation. -/
theorem C1_counterexample :
    (App1.Storage.updateContainer "a" { height := some 7 } .unavailable 0
        ⟨.arr [⟨"a", "countdown", "", "", 2, 0, 0, {}⟩], .absent, none⟩).1.containers
      = .arr [⟨"a", "countdown", "", "", 7, 0, 0, {}⟩] ∧
    ¬ (App1.Storage.updateContainer "a" { height := some 7 } .unavailable 0
        ⟨.arr [⟨"a", "countdown", "", "", 2, 0, 0, {}⟩], .absent, none⟩).1.containers
      = .arr [⟨"a", "countdown", "", "", 5, 0, 0, {}⟩] := by
  constructor <;> decide

/-- Every record in the list produced by the store's find-and-merge update is
either an untouched stored record or the patched first match. -/
theorem updateFirst_mem (id : String) (p : App1.ContainerPatch) :
    ∀ cs c, c ∈ (App1.Storage.updateFirst id p cs).1 →
      c ∈ cs ∨ ∃ a ∈ cs, c = App1.applyPatch a p := by
  intro cs
  induction cs with
  | nil =>
    intro c hc
    exact absurd hc (by simp [App1.Storage.updateFirst])
  | cons a as ih =>
    intro c hc
    unfold App1.Storage.updateFirst at hc
    by_cases ha : a.id = id
    · rw [if_pos ha] at hc
      rcases List.mem_cons.mp hc with rfl | hm
      · exact Or.inr ⟨a, List.mem_cons_self a as, rfl⟩
      · exact Or.inl (List.mem_cons_of_mem a hm)
    · rw [if_neg ha] at hc
      rcases List.mem_cons.mp hc with h | hm
      · exact Or.inl (by rw [h]; exact List.mem_cons_self a as)
      · rcases ih c hm with h | ⟨b, hb, rfl⟩
        · exact Or.inl (List.mem_cons_of_mem a h)
        · exact Or.inr ⟨b, List.mem_cons_of_mem a hb, rfl⟩

/-- Claim C1 amended: `Storage.updateContainer` shallow-merges the partial
without clamping (so `{height: 7}` is stored as 7); the `[1,5]` clamp is
enforced one layer up, in `Container.adjustHeight`, whose computed height
always lies in `[1,5]`, so a height mutation through the UI height control
keeps every stored height in range when the rest of the store already is. -/
theorem C1_amended_adjustHeight_clamps (heightField : Option Int) (delta : Int)
    (id : String) (cs : List App1.Container)
    (hinv : ∀ c ∈ cs, 1 ≤ c.height ∧ c.height ≤ 5) :
    (1 ≤ App1.adjustHeightNew heightField delta ∧ App1.adjustHeightNew heightField delta ≤ 5) ∧
    ∀ c ∈ (App1.Storage.updateFirst id
        { height := some (App1.adjustHeightNew heightField delta) } cs).1,
      1 ≤ c.height ∧ c.height ≤ 5 := by
  have hb : 1 ≤ App1.adjustHeightNew heightField delta ∧
      App1.adjustHeightNew heightField delta ≤ 5 := by
    unfold App1.adjustHeightNew
    constructor
    · exact le_max_left _ _
    · exact max_le (by decide) (min_le_left _ _)
  refine ⟨hb, ?_⟩
  intro c hc
  rcases updateFirst_mem id _ cs c hc with h | ⟨a, _, rfl⟩
  · exact hinv c h
  · exact hb

/-- Witness for C1 amended at a concrete input: height field 4, delta +3,
a one-container store already in range. -/
theorem C1_amended_adjustHeight_clamps_witness :
    (1 ≤ App1.adjustHeightNew (some 4) 3 ∧ App1.adjustHeightNew (some 4) 3 ≤ 5) ∧
    ∀ c ∈ (App1.Storage.updateFirst "a"
        { height := some (App1.adjustHeightNew (some 4) 3) }
        [⟨"a", "countdown", "", "", 2, 0, 0, {}⟩]).1,
      1 ≤ c.height ∧ c.height ≤ 5 :=
  C1_amended_adjustHeight_clamps (some 4) 3 "a" [⟨"a", "countdown", "", "", 2, 0, 0, {}⟩]
    (by decide)

/-- Claim C3: every store read is total (the embedding of `Storage.get` is a
total function); it returns the synced backend's value when that read yields
an array, otherwise falls back to the durable local read, and when the local
containers key is also absent or malformed — and no legacy timers array is
present to migrate — it returns the empty container list. -/
theorem C3_get_total_fallback (sync : App1.SyncRead) (now : Int) (ls : App1.LocalState) :
    (∀ cs, sync = .value cs → App1.Storage.get sync now ls = (ls, cs)) ∧
    ((∀ cs, sync ≠ .value cs) →
      App1.Storage.get sync now ls = App1.Storage.getFromLocalStorage now ls) ∧
    ((∀ cs, sync ≠ .value cs) → (∀ cs, ls.containers ≠ .arr cs) →
      (∀ ts, ls.timers ≠ .arr ts) →
      App1.Storage.get sync now ls = (ls, [])) := by
  obtain ⟨co, ti, se⟩ := ls
  refine ⟨?_, ?_, ?_⟩
  · rintro cs rfl
    rfl
  · intro hns
    cases sync <;> first | rfl | exact absurd rfl (hns _)
  · intro hns hc ht
    have hg : App1.Storage.get sync now ⟨co, ti, se⟩ =
        App1.Storage.getFromLocalStorage now ⟨co, ti, se⟩ := by
      cases sync <;> first | rfl | exact absurd rfl (hns _)
    rw [hg]
    cases co
    case arr cs => exact absurd rfl (hc cs)
    all_goals
      cases ti
      case arr ts => exact absurd rfl (ht ts)
      all_goals rfl

/-- Witness for C3 at a concrete state: synced key missing, both local keys
absent — the read yields the empty list. -/
theorem C3_get_total_fallback_witness :
    App1.Storage.get .missing 0 ⟨.absent, .absent, none⟩ =
      (⟨.absent, .absent, none⟩, []) :=
  (C3_get_total_fallback .missing 0 ⟨.absent, .absent, none⟩).2.2
    (fun _ h => App1.SyncRead.noConfusion h)
    (fun _ h => StoredJson.noConfusion h)
    (fun _ h => StoredJson.noConfusion h)

/-- Claim C7: importing a document that failed to parse, or whose
`containers` field is missing or not an array, performs no write — the
stored container list and settings are unchanged and a subsequent `get`
returns exactly what it returned before; only a document whose `containers`
field is an array overwrites the stored list wholesale. -/
theorem C7_import_rejects_invalid (cf : StoredJson App1.Container)
    (s? : Option App1.Settings) (ls : App1.LocalState) (sync : App1.SyncRead) (now : Int)
    (hcf : ∀ cs, cf ≠ .arr cs) :
    App1.importData .parseError ls = ls ∧
    App1.importData (.doc cf s?) ls = ls ∧
    (App1.importData (.doc cf s?) ls).settings = ls.settings ∧
    App1.Storage.get sync now (App1.importData (.doc cf s?) ls) =
      App1.Storage.get sync now ls ∧
    (∀ cs, (App1.importData (.doc (.arr cs) s?) ls).containers = .arr cs) := by
  have h2 : App1.importData (.doc cf s?) ls = ls := by
    cases cf
    case arr cs => exact absurd rfl (hcf cs)
    all_goals rfl
  refine ⟨rfl, h2, by rw [h2], by rw [h2], ?_⟩
  intro cs
  cases s? <;> rfl

/-- Witness for C7 at a concrete state: a document with no `containers`
field against a one-container store. -/
theorem C7_import_rejects_invalid_witness :
    App1.importData (.doc .absent none)
        ⟨.arr [⟨"a", "countdown", "", "", 2, 0, 0, {}⟩], .absent, none⟩ =
      ⟨.arr [⟨"a", "countdown", "", "", 2, 0, 0, {}⟩], .absent, none⟩ :=
  (C7_import_rejects_invalid .absent none
      ⟨.arr [⟨"a", "countdown", "", "", 2, 0, 0, {}⟩], .absent, none⟩ .unavailable 0
      (fun _ h => StoredJson.noConfusion h)).2.1

/-- Claim C10: a read can mutate persistent state — when the synced backend
yields no array, the current containers key is absent or malformed, and the
legacy timers key holds a parseable array, `get` migrates during the read:
it returns the legacy array transformed element-by-element (order and length
preserved), persists the migrated list under the containers key, and removes
the legacy key; each migrated record has its id's `timer_` prefix rewritten
to `container_`, type `countdown`, and its dates nested under `data`. -/
theorem C10_get_migrates_during_read (sync : App1.SyncRead) (now : Int)
    (ls : App1.LocalState) (ts : List App1.LegacyTimer)
    (hs : ∀ cs, sync ≠ .value cs)
    (hc : ∀ cs, ls.containers ≠ .arr cs)
    (ht : ls.timers = .arr ts) :
    (App1.Storage.get sync now ls).2 = ts.map (App1.Storage.migrateTimer now) ∧
    (App1.Storage.get sync now ls).1.containers
      = .arr (ts.map (App1.Storage.migrateTimer now)) ∧
    (App1.Storage.get sync now ls).1.timers = .absent ∧
    (App1.Storage.get sync now ls).1.settings = ls.settings ∧
    (App1.Storage.get sync now ls).2.length = ts.length ∧
    (∀ t ∈ ts,
      (App1.Storage.migrateTimer now t).type = "countdown" ∧
      (App1.Storage.migrateTimer now t).data
        = { startDate := t.startDate, targetDate := t.targetDate } ∧
      (∀ r, t.id = "timer_" ++ r →
        (App1.Storage.migrateTimer now t).id = "container_" ++ r)) := by
  obtain ⟨co, ti, se⟩ := ls
  simp only at ht
  subst ht
  have hg : App1.Storage.get sync now ⟨co, .arr ts, se⟩ =
      App1.Storage.getFromLocalStorage now ⟨co, .arr ts, se⟩ := by
    cases sync <;> first | rfl | exact absurd rfl (hs _)
  have hl : App1.Storage.getFromLocalStorage now ⟨co, .arr ts, se⟩ =
      (⟨.arr (ts.map (App1.Storage.migrateTimer now)), .absent, se⟩,
        ts.map (App1.Storage.migrateTimer now)) := by
    cases co
    case arr cs => exact absurd rfl (hc cs)
    all_goals rfl
  rw [hg, hl]
  refine ⟨rfl, rfl, rfl, rfl, List.length_map _ _, ?_⟩
  intro t _
  refine ⟨rfl, rfl, ?_⟩
  intro r hr
  show jsReplaceFirst t.id "timer_" "container_" = "container_" ++ r
  rw [hr]
  exact jsReplaceFirst_timer_to_container r

/-- Witness for C10 at a concrete state: one legacy timer migrated during a
read with the synced backend unavailable and the containers key absent. -/
theorem C10_get_migrates_during_read_witness :
    (App1.Storage.get .unavailable 42
        ⟨.absent, .arr [⟨"timer_x", some "T", none, none, none, none,
          some "2024-01-01", some "2024-01-15"⟩], none⟩).2
      = [⟨"timer_x", some "T", none, none, none, none, some "2024-01-01",
          some "2024-01-15"⟩].map (App1.Storage.migrateTimer 42) :=
  (C10_get_migrates_during_read .unavailable 42
      ⟨.absent, .arr [⟨"timer_x", some "T", none, none, none, none,
        some "2024-01-01", some "2024-01-15"⟩], none⟩
      [⟨"timer_x", some "T", none, none, none, none, some "2024-01-01",
        some "2024-01-15"⟩]
      (fun _ h => App1.SyncRead.noConfusion h)
      (fun _ h => StoredJson.noConfusion h) rfl).1

/-- The list the reorder returns, written as one `filterMap` over the
requested ids. -/
theorem reorderContainers_snd (ids : List String) (ls : App2.LocalState) :
    (App2.Storage.reorderContainers ids ls).2
      = ids.filterMap (fun i =>
          (App2.Storage.getFromLocalStorage ls).find? (fun c => c.id == i)) := by
  simp only [App2.Storage.reorderContainers, List.filterMap_map]
  rfl

/-- Projection of ids through the reorder: the ids of the reordered list are
exactly the requested ids that match a stored record, in requested order. -/
theorem reorder_ids_projection (cs : List App2.Container) (ids : List String) :
    ((ids.filterMap (fun i => cs.find? (fun c => c.id == i))).map App2.Container.id)
      = ids.filter (fun i => (cs.find? (fun c => c.id == i)).isSome) := by
  induction ids with
  | nil => rfl
  | cons i ids ih =>
    simp only [List.filterMap_cons, List.filter_cons]
    cases hf : cs.find? (fun c => c.id == i) with
    | none => simp [hf, ih]
    | some c =>
      have hc : c.id = i := by
        have := List.find?_some hf
        simpa using this
      simp [hf, ih, hc]

/-- Every record returned by the reorder projection is one of the stored
records (found by `containers.find`), hence content-identical to it. -/
theorem reorder_mem_store (cs : List App2.Container) (ids : List String) :
    ∀ c ∈ ids.filterMap (fun i => cs.find? (fun x => x.id == i)), c ∈ cs := by
  intro c hc
  rcases List.mem_filterMap.mp hc with ⟨i, _, hf⟩
  exact List.mem_of_find?_eq_some hf

/-- Claim C2: `reorderContainers(orderedIds)` re-projects the stored list
into the given id order — every returned record is (content-identical to) a
stored record, the returned ids are the requested ids that matched a stored
record in requested order, and on a store holding `[c1, c2]` with distinct
ids the request `[c2.id, c1.id]` returns `[c2, c1]` with every field of both
records unchanged and persists exactly that order. -/
theorem C2_reorderContainers_projection (ids : List String) (ls : App2.LocalState)
    (c1 c2 : App2.Container) (ls0 : App2.LocalState) (hne : c1.id ≠ c2.id) :
    (∀ c ∈ (App2.Storage.reorderContainers ids ls).2,
      c ∈ App2.Storage.getFromLocalStorage ls) ∧
    ((App2.Storage.reorderContainers ids ls).2.map App2.Container.id
      = ids.filter (fun i =>
          ((App2.Storage.getFromLocalStorage ls).find? (fun c => c.id == i)).isSome)) ∧
    App2.Storage.reorderContainers [c2.id, c1.id] (App2.Storage.set [c1, c2] ls0)
      = (App2.Storage.set [c2, c1] ls0, [c2, c1]) := by
  refine ⟨?_, ?_, ?_⟩
  · rw [reorderContainers_snd]
    exact reorder_mem_store _ ids
  · rw [reorderContainers_snd]
    exact reorder_ids_projection _ ids
  have hbe : (c1.id == c2.id) = false := by
    exact beq_false_of_ne hne
  obtain ⟨co, wi, ti, lt, lsrt, lti, lde⟩ := ls0
  simp [App2.Storage.reorderContainers, App2.Storage.set,
    App2.Storage.getFromLocalStorage, List.find?, hbe]

/-- Witness for C2 at concrete records: two containers `a`, `b` reordered
to `[b, a]`. -/
theorem C2_reorderContainers_projection_witness :
    App2.Storage.reorderContainers
        [App2.Container.id ⟨"b", "text", "", "", 1, 0, none, none, none, some "y"⟩,
         App2.Container.id ⟨"a", "countdown", "t", "d", 2, 0, some "s", some "e", none, none⟩]
        (App2.Storage.set
          [⟨"a", "countdown", "t", "d", 2, 0, some "s", some "e", none, none⟩,
           ⟨"b", "text", "", "", 1, 0, none, none, none, some "y"⟩]
          ⟨.absent, .absent, .absent, none, none, none, none⟩)
      = (App2.Storage.set
          [⟨"b", "text", "", "", 1, 0, none, none, none, some "y"⟩,
           ⟨"a", "countdown", "t", "d", 2, 0, some "s", some "e", none, none⟩]
          ⟨.absent, .absent, .absent, none, none, none, none⟩,
        [⟨"b", "text", "", "", 1, 0, none, none, none, some "y"⟩,
         ⟨"a", "countdown", "t", "d", 2, 0, some "s", some "e", none, none⟩]) :=
  (C2_reorderContainers_projection [] ⟨.absent, .absent, .absent, none, none, none, none⟩
      ⟨"a", "countdown", "t", "d", 2, 0, some "s", some "e", none, none⟩
      ⟨"b", "text", "", "", 1, 0, none, none, none, some "y"⟩
      ⟨.absent, .absent, .absent, none, none, none, none⟩ (by decide)).2.2

/-- Claim C9 (implicit): `reorderContainers` persists exactly the projected
list, so every stored record whose id is not among the requested ids is
dropped from the persisted store — a caller passing a partial id list loses
the unlisted containers. -/
theorem C9_reorderContainers_drops_unlisted (ids : List String) (ls : App2.LocalState) :
    (App2.Storage.reorderContainers ids ls).1.containers
      = .arr (App2.Storage.reorderContainers ids ls).2 ∧
    (∀ c ∈ (App2.Storage.reorderContainers ids ls).2, c.id ∈ ids) ∧
    (∀ c ∈ App2.Storage.getFromLocalStorage ls, c.id ∉ ids →
      c ∉ (App2.Storage.reorderContainers ids ls).2) := by
  have hid : ∀ c ∈ (App2.Storage.reorderContainers ids ls).2, c.id ∈ ids := by
    intro c hc
    rw [reorderContainers_snd] at hc
    rcases List.mem_filterMap.mp hc with ⟨i, hi, hf⟩
    have : c.id = i := by
      have := List.find?_some hf
      simpa using this
    rw [this]
    exact hi
  exact ⟨rfl, hid, fun c _ hnot hin => hnot (hid c hin)⟩

/-- Witness for C9: on a store holding records `a` and `b`, reordering with
the partial list `["b"]` drops record `a` from the persisted store. -/
theorem C9_reorderContainers_drops_unlisted_witness :
    (⟨"a", "countdown", "t", "d", 2, 0, some "s", some "e", none, none⟩ : App2.Container) ∉
      (App2.Storage.reorderContainers ["b"]
        ⟨.arr [⟨"a", "countdown", "t", "d", 2, 0, some "s", some "e", none, none⟩,
               ⟨"b", "text", "", "", 1, 0, none, none, none, some "y"⟩],
          .absent, .absent, none, none, none, none⟩).2 :=
  (C9_reorderContainers_drops_unlisted ["b"]
      ⟨.arr [⟨"a", "countdown", "t", "d", 2, 0, some "s", some "e", none, none⟩,
             ⟨"b", "text", "", "", 1, 0, none, none, none, some "y"⟩],
        .absent, .absent, none, none, none, none⟩).2.2
    ⟨"a", "countdown", "t", "d", 2, 0, some "s", some "e", none, none⟩
    (by decide) (by decide)


/-- When the chained array migration reports nothing migrated, it also left
the store untouched. -/
theorem migrateTimers_none_state (ls ls1 : App2.LocalState)
    (h : App2.Storage.migrateTimersToContainers ls = (ls1, none)) : ls1 = ls := by
  unfold App2.Storage.migrateTimersToContainers at h
  by_cases hlen : (App2.Storage.getFromLocalStorage ls).length > 0
  · rw [if_pos hlen] at h
    injection h with h1 h2
    exact h1.symm
  · rw [if_neg hlen] at h
    rcases hw : App2.Storage.oldDataOf ls.widgets with _ | x
    · rw [hw] at h
      dsimp only [] at h
      rcases ht : App2.Storage.oldDataOf ls.timers with _ | y
      · rw [ht] at h
        injection h with h1 h2
        exact h1.symm
      · rw [ht] at h
        cases y with
        | arr items =>
          dsimp only [] at h
          by_cases hi : items.length > 0
          · rw [if_pos hi] at h
            injection h with h1 h2
            exact Option.noConfusion h2
          · rw [if_neg hi] at h
            injection h with h1 h2
            exact h1.symm
        | nonArr =>
          injection h with h1 h2
          exact h1.symm
    · rw [hw] at h
      dsimp only [] at h
      cases x with
      | arr items =>
        dsimp only [] at h
        by_cases hi : items.length > 0
        · rw [if_pos hi] at h
          injection h with h1 h2
          exact Option.noConfusion h2
        · rw [if_neg hi] at h
          injection h with h1 h2
          exact h1.symm
      | nonArr =>
        injection h with h1 h2
        exact h1.symm

/-- When the chained array migration migrated a list, the resulting store
holds exactly that list under the containers key, and it is non-empty. -/
theorem migrateTimers_some_state (ls ls1 : App2.LocalState) (m : List App2.Container)
    (h : App2.Storage.migrateTimersToContainers ls = (ls1, some m)) :
    ls1.containers = .arr m ∧ m ≠ [] := by
  unfold App2.Storage.migrateTimersToContainers at h
  by_cases hlen : (App2.Storage.getFromLocalStorage ls).length > 0
  · rw [if_pos hlen] at h
    injection h with h1 h2
    exact Option.noConfusion h2
  · rw [if_neg hlen] at h
    rcases hw : App2.Storage.oldDataOf ls.widgets with _ | x
    · rw [hw] at h
      dsimp only [] at h
      rcases ht : App2.Storage.oldDataOf ls.timers with _ | y
      · rw [ht] at h
        injection h with h1 h2
        exact Option.noConfusion h2
      · rw [ht] at h
        cases y with
        | arr items =>
          dsimp only [] at h
          by_cases hi : items.length > 0
          · rw [if_pos hi] at h
            injection h with h1 h2
            injection h2 with h3
            refine ⟨by rw [← h1, ← h3]; rfl, ?_⟩
            intro hnil
            rw [← h3, List.map_eq_nil_iff] at hnil
            subst hnil
            simp at hi
          · rw [if_neg hi] at h
            injection h with h1 h2
            exact Option.noConfusion h2
        | nonArr =>
          injection h with h1 h2
          exact Option.noConfusion h2
    · rw [hw] at h
      dsimp only [] at h
      cases x with
      | arr items =>
        dsimp only [] at h
        by_cases hi : items.length > 0
        · rw [if_pos hi] at h
          injection h with h1 h2
          injection h2 with h3
          refine ⟨by rw [← h1, ← h3]; rfl, ?_⟩
          intro hnil
          rw [← h3, List.map_eq_nil_iff] at hnil
          subst hnil
          simp at hi
        · rw [if_neg hi] at h
          injection h with h1 h2
          exact Option.noConfusion h2
      | nonArr =>
        injection h with h1 h2
        exact Option.noConfusion h2

/-- When the single-record legacy migration reports nothing migrated, it
left the store untouched. -/
theorem migrateLegacy_none_state (freshId : String) (now : Int) (ls ls1 : App2.LocalState)
    (h : App2.Storage.migrateFromLegacy freshId now ls = (ls1, none)) : ls1 = ls := by
  unfold App2.Storage.migrateFromLegacy at h
  split at h
  · injection h with h1 h2
    exact Option.noConfusion h2
  · injection h with h1 h2
    exact h1.symm

/-- When the single-record legacy migration synthesized a container, the
resulting store's container list is non-empty. -/
theorem migrateLegacy_some_state (freshId : String) (now : Int) (ls ls1 : App2.LocalState)
    (c : App2.Container)
    (h : App2.Storage.migrateFromLegacy freshId now ls = (ls1, some c)) :
    0 < (App2.Storage.getFromLocalStorage ls1).length := by
  unfold App2.Storage.migrateFromLegacy at h
  split at h
  · injection h with h1 h2
    rw [← h1]
    simp [App2.Storage.addContainer, App2.Storage.set, App2.Storage.getFromLocalStorage]
  · injection h with h1 h2
    exact Option.noConfusion h2

/-- A store whose container list is already non-empty is a fixed point of
the startup migration: no migration path is consulted. -/
theorem loadContainersStore_fixed (freshId : String) (now : Int) (ls : App2.LocalState)
    (h : 0 < (App2.Storage.getFromLocalStorage ls).length) :
    App2.loadContainersStore freshId now ls = ls := by
  have hmt : App2.Storage.migrateTimersToContainers ls = (ls, none) := by
    unfold App2.Storage.migrateTimersToContainers
    rw [if_pos h]
  unfold App2.loadContainersStore
  rw [hmt]
  show (if (App2.Storage.getFromLocalStorage ls).length = 0
      then (App2.Storage.migrateFromLegacy freshId now ls).1 else ls) = ls
  rw [if_neg (by omega)]

/-- Claim C6: the startup migration is idempotent — running it twice in a
row (with possibly different generated ids and clock readings) leaves
exactly the state produced by running it once: after a successful migration
the containers key is populated and no migration path runs again, and a run
that migrated nothing did not change the store. -/
theorem C6_startup_migration_idempotent (id1 : String) (now1 : Int) (id2 : String)
    (now2 : Int) (ls : App2.LocalState) :
    App2.loadContainersStore id2 now2 (App2.loadContainersStore id1 now1 ls)
      = App2.loadContainersStore id1 now1 ls := by
  rcases hmt : App2.Storage.migrateTimersToContainers ls with ⟨ls1, mg⟩
  cases mg with
  | some m =>
    have h1 : App2.loadContainersStore id1 now1 ls = ls1 := by
      unfold App2.loadContainersStore
      rw [hmt]
    have h2 := migrateTimers_some_state ls ls1 m hmt
    have hpos : 0 < (App2.Storage.getFromLocalStorage ls1).length := by
      unfold App2.Storage.getFromLocalStorage
      rw [h2.1]
      exact List.length_pos.mpr h2.2
    rw [h1]
    exact loadContainersStore_fixed id2 now2 ls1 hpos
  | none =>
    have hls1 : ls1 = ls := migrateTimers_none_state ls ls1 hmt
    rw [hls1] at hmt
    by_cases hl : (App2.Storage.getFromLocalStorage ls).length = 0
    · rcases hfl : App2.Storage.migrateFromLegacy id1 now1 ls with ⟨ls2, c?⟩
      have h1 : App2.loadContainersStore id1 now1 ls = ls2 := by
        unfold App2.loadContainersStore
        rw [hmt]
        show (if (App2.Storage.getFromLocalStorage ls).length = 0
            then (App2.Storage.migrateFromLegacy id1 now1 ls).1 else ls) = ls2
        rw [if_pos hl, hfl]
      cases c? with
      | some c =>
        have hpos := migrateLegacy_some_state id1 now1 ls ls2 c hfl
        rw [h1]
        exact loadContainersStore_fixed id2 now2 ls2 hpos
      | none =>
        have hls2 : ls2 = ls := migrateLegacy_none_state id1 now1 ls ls2 hfl
        rw [hls2] at h1 hfl
        rw [h1]
        have hcond : ¬ (jsTruthyS ls.legacyTarget && jsTruthyS ls.legacyStart) = true := by
          intro hcondT
          unfold App2.Storage.migrateFromLegacy at hfl
          rw [if_pos hcondT] at hfl
          injection hfl with hf1 hf2
          exact Option.noConfusion hf2
        have hfl2 : App2.Storage.migrateFromLegacy id2 now2 ls = (ls, none) := by
          unfold App2.Storage.migrateFromLegacy
          rw [if_neg hcond]
        unfold App2.loadContainersStore
        rw [hmt]
        show (if (App2.Storage.getFromLocalStorage ls).length = 0
            then (App2.Storage.migrateFromLegacy id2 now2 ls).1 else ls) = ls
        rw [if_pos hl, hfl2]
    · have h1 : App2.loadContainersStore id1 now1 ls = ls := by
        unfold App2.loadContainersStore
        rw [hmt]
        show (if (App2.Storage.getFromLocalStorage ls).length = 0
            then (App2.Storage.migrateFromLegacy id1 now1 ls).1 else ls) = ls
        rw [if_neg hl]
      rw [h1]
      unfold App2.loadContainersStore
      rw [hmt]
      show (if (App2.Storage.getFromLocalStorage ls).length = 0
          then (App2.Storage.migrateFromLegacy id2 now2 ls).1 else ls) = ls
      rw [if_neg hl]
